import Mathlib

/-!
Verification development for the rad-flux repository (two classes:
DataStore in the ES6 data-store source, Actions in src/actions.js).

JavaScript values that can appear in a DataStore state tree or be passed
as arguments are modelled by the inductive type JSVal. Plain objects are
insertion-ordered association lists (for..in enumeration order of the
string keys the library manipulates); arrays are element lists; functions
are opaque identities (a natural number), since the library only stores,
compares (by reference) and invokes them.

Not modelled, because no code path reached by the claims exercises it:
string-valued properties stored on array objects, assignment to the
length property of an array, and the built-in index properties of
primitive strings. The merge recursion only recurses into values whose
runtime typeof is the string object, and every theorem below that
quantifies over states restricts the stem to plain objects, matching the
reachable states the claims are about.
-/

inductive JSVal where
  | vUndefined : JSVal
  | vNull : JSVal
  | vNum : Int → JSVal
  | vStr : String → JSVal
  | vBool : Bool → JSVal
  | vObj : List (String × JSVal) → JSVal
  | vArr : List JSVal → JSVal
  | vFun : Nat → JSVal

/-- Result of the JavaScript typeof operator on a modelled value. -/
def typeofJs : JSVal → String
  | .vUndefined => "undefined"
  | .vNull => "object"
  | .vNum _ => "number"
  | .vStr _ => "string"
  | .vBool _ => "boolean"
  | .vObj _ => "object"
  | .vArr _ => "object"
  | .vFun _ => "function"

/-- True for the values null and undefined. -/
def isNullish : JSVal → Bool
  | .vNull => true
  | .vUndefined => true
  | _ => false

/-- First-match lookup in an insertion-ordered association list. -/
def alookup {β : Type} : List (String × β) → String → Option β
  | [], _ => none
  | (k2, v) :: rest, k => if k2 = k then some v else alookup rest k

/-- Property write on an association list: an existing key keeps its
enumeration position, a new key is appended at the end, exactly as
property assignment behaves on a JavaScript object. -/
def aset {β : Type} : List (String × β) → String → β → List (String × β)
  | [], k, v => [(k, v)]
  | (k2, v2) :: rest, k, v =>
    if k2 = k then (k, v) :: rest else (k2, v2) :: aset rest k v

/-- The delete operator on an association list. -/
def aremove {β : Type} : List (String × β) → String → List (String × β)
  | [], _ => []
  | (k2, v2) :: rest, k =>
    if k2 = k then rest else (k2, v2) :: aremove rest k

/-- A string is a canonical array index when it is the decimal rendering
of a natural number. -/
def parseIndex (k : String) : Option Nat :=
  match k.toNat? with
  | some n => if toString n = k then some n else none
  | none => none

/-- Array element write at a canonical index; writing past the end pads
with holes, which read back as undefined. -/
def setElem (es : List JSVal) (i : Nat) (v : JSVal) : List JSVal :=
  if i < es.length then es.set i v
  else es ++ List.replicate (i - es.length) .vUndefined ++ [v]

/-- Property read, base[k]. Reading a property of null or undefined
throws a TypeError, modelled as the error case. Property reads on other
primitives yield undefined. -/
def getProp : JSVal → String → Except Unit JSVal
  | .vNull, _ => .error ()
  | .vUndefined, _ => .error ()
  | .vObj fs, k => .ok ((alookup fs k).getD .vUndefined)
  | .vArr es, k =>
    .ok (match parseIndex k with
      | some i => es.getD i .vUndefined
      | none => if k = "length" then .vNum es.length else .vUndefined)
  | _, _ => .ok .vUndefined

/-- Property write, base[k] = v. The sources are ES modules, hence
strict mode: writing a property of a primitive, null or undefined throws
a TypeError, modelled as the error case. -/
def setProp : JSVal → String → JSVal → Except Unit JSVal
  | .vObj fs, k, v => .ok (.vObj (aset fs k v))
  | .vArr es, k, v =>
    .ok (.vArr (match parseIndex k with
      | some i => setElem es i v
      | none => es))
  | _, _, _ => .error ()

/-- The delete operator, delete base[k]. Deleting from null or undefined
throws a TypeError; deleting an array index leaves a hole (length is
unchanged, the slot reads back as undefined); deleting a property of any
other primitive is a successful no-op. -/
def deleteProp : JSVal → String → Except Unit JSVal
  | .vNull, _ => .error ()
  | .vUndefined, _ => .error ()
  | .vObj fs, k => .ok (.vObj (aremove fs k))
  | .vArr es, k =>
    .ok (.vArr (match parseIndex k with
      | some i => if i < es.length then es.set i .vUndefined else es
      | none => es))
  | prim, _ => .ok prim

/-- Outcome of running the body of DataStore.setState on one stem: either
the loop over the patch keys completed, or a TypeError was thrown partway.
In both cases the value carried is the stem as mutated so far, because the
source mutates the stem in place, so mutations made before a throw
survive it. -/
inductive MergeOut where
  | ok : JSVal → MergeOut
  | err : JSVal → MergeOut

/-- The stem after the merge attempt, whether or not it threw. -/
def MergeOut.stem : MergeOut → JSVal
  | .ok s => s
  | .err s => s

/-- True when the merge completed without throwing. -/
def MergeOut.isOk : MergeOut → Bool
  | .ok _ => true
  | .err _ => false

/-- The validation at the top of DataStore.setState in the data-store
source: typeof newState must be the string object, newState must not be
null, and newState.constructor must be Object. Exactly the plain objects
pass; arrays fail the constructor comparison. -/
def validPatch : JSVal → Bool
  | .vObj _ => true
  | _ => false

mutual

/-- The for..in loop of DataStore.setState over the keys of the patch, in
enumeration order, against the given stem. Each key is processed by
stepKey; a throw aborts the loop, keeping the mutations already made. -/
def mergeFields (ps : List (String × JSVal)) (stem : JSVal) : MergeOut :=
  match ps with
  | [] => .ok stem
  | (k, v) :: rest =>
    match stepKey stem k v with
    | .ok s => mergeFields rest s
    | .err s => .err s
termination_by sizeOf ps

/-- One iteration of the setState loop body for patch key k with patch
value v:
if v is null or undefined, delete stem[k];
else if typeof v and typeof stem[k] are both the string object, call
this.setState(v, stem[k]) recursively — that recursive call re-runs the
validation, so when v is an array (typeof object but constructor Array)
it throws a TypeError before touching stem[k];
else assign stem[k] = v.
The evaluation order of the guard is kept: stem[k] is only read when
typeof v is the string object, so a primitive patch value against a null
stem throws at the assignment, not at the read. -/
def stepKey (stem : JSVal) (k : String) (v : JSVal) : MergeOut :=
  if isNullish v then
    match deleteProp stem k with
    | .ok s => .ok s
    | .error _ => .err stem
  else if typeofJs v = "object" then
    match getProp stem k with
    | .error _ => .err stem
    | .ok sv =>
      if typeofJs sv = "object" then
        match v with
        | .vObj ps =>
          match mergeFields ps sv with
          | .ok sv2 =>
            match setProp stem k sv2 with
            | .ok s => .ok s
            | .error _ => .err stem
          | .err sv2 =>
            .err (match setProp stem k sv2 with
              | .ok s => s
              | .error _ => stem)
        | _ => .err stem
      else
        match setProp stem k v with
        | .ok s => .ok s
        | .error _ => .err stem
  else
    match setProp stem k v with
    | .ok s => .ok s
    | .error _ => .err stem
termination_by sizeOf v

end

/-- DataStore.setState applied to one stem: validate the patch, then run
the key loop. An invalid patch throws before any mutation. -/
def setStateRec (newState stem : JSVal) : MergeOut :=
  if validPatch newState then
    match newState with
    | .vObj ps => mergeFields ps stem
    | _ => .err stem
  else .err stem

structure DataStore where
  state : JSVal
  subscribers : List Nat

/-- Observable outcome of a public mutator call: the store afterwards,
the notifications delivered (subscriber identity paired with the state
value it received), and whether the call threw. -/
structure MutResult where
  store : DataStore
  notifs : List (Nat × JSVal)
  threw : Bool

/-- The public unary DataStore.setState call, where stem defaults to
this.state. The guard stem === this.state selects exactly this outermost
invocation on the acyclic states modelled here, because every recursive
invocation receives a proper subtree as its stem; hence the subscriber
loop is modelled here and only here, and it runs only when the merge loop
completed without throwing, since a thrown TypeError propagates out
before the loop is reached. -/
def DataStore.setState (ds : DataStore) (patch : JSVal) : MutResult :=
  let m := setStateRec patch ds.state
  if m.isOk then
    { store := { state := m.stem, subscribers := ds.subscribers },
      notifs := ds.subscribers.map (fun c => (c, m.stem)),
      threw := false }
  else
    { store := { state := m.stem, subscribers := ds.subscribers },
      notifs := [],
      threw := true }

/-- The check at the top of DataStore.replaceState: typeof newState must
be the string object and newState must not be null, so plain objects and
arrays pass. On failure the method silently returns. -/
def replaceValid : JSVal → Bool
  | .vObj _ => true
  | .vArr _ => true
  | _ => false

/-- DataStore.replaceState: silently ignore invalid input, otherwise
assign the state and notify every subscriber with the new state. -/
def DataStore.replaceState (ds : DataStore) (v : JSVal) : MutResult :=
  if replaceValid v then
    { store := { state := v, subscribers := ds.subscribers },
      notifs := ds.subscribers.map (fun c => (c, v)),
      threw := false }
  else
    { store := ds, notifs := [], threw := false }

/-- DataStore.onStateChanged: accept a function callback not already in
the subscriber list (reference identity), append it, and return it; on a
duplicate or a non-function the condition fails and nothing is returned.
Function references are the vFun identities. -/
def DataStore.onStateChanged (ds : DataStore) (cb : JSVal) :
    DataStore × Option JSVal :=
  match cb with
  | .vFun c =>
    if c ∈ ds.subscribers then (ds, none)
    else ({ state := ds.state, subscribers := ds.subscribers ++ [c] },
      some (.vFun c))
  | _ => (ds, none)

/-- True for the JavaScript falsy values among the modelled ones. -/
def jsFalsy : JSVal → Bool
  | .vUndefined => true
  | .vNull => true
  | .vNum n => n = 0
  | .vStr s => s = ""
  | .vBool b => !b
  | _ => false

/-- The DataStore constructor: this.state = initState || an empty object,
with an empty subscriber list. The initial state is stored verbatim with
no shape validation. -/
def DataStore.create (init : JSVal) : DataStore :=
  { state := if jsFalsy init then .vObj [] else init, subscribers := [] }

/-- One action record as installed by the Actions constructor and
replaced wholesale by Actions.register: the ordered subscriber list and
the registered function, initially null. Functions are identified by the
natural number of their vFun reference. -/
structure ActionRec where
  subscribers : List Nat
  func : Option Nat

structure Actions where
  actions : List (String × ActionRec)

/-- The Actions constructor: for each declared name, defineProperty
installs the record with an empty subscriber list and a null function.
The properties of the object literal handed to the constructor are
configurable, and defineProperty with configurable omitted keeps that
attribute, so the records stay redefinable by register even though they
are made non-writable. -/
def Actions.create (names : List String) : Actions :=
  { actions := names.map (fun k => (k, { subscribers := [], func := none })) }

/-- The errors Actions.register can throw, in the order its checks run:
a TypeError when the key is not a string, a TypeError when the function
argument is not a function, an Error when the action was not declared in
the constructor, and an Error when the action already has a registered
function. -/
inductive RegErr where
  | keyNotString : RegErr
  | funcNotFunction : RegErr
  | notDeclared : RegErr
  | alreadyRegistered : RegErr
deriving DecidableEq

/-- Actions.register: after the four checks pass, defineProperty replaces
the whole record with a fresh one whose subscriber list is the literal
empty array and whose function is the new handler. The redefinition
succeeds because the property is still configurable, and it discards any
subscribers the old record had accumulated. -/
def Actions.register (a : Actions) (key func : JSVal) :
    Except RegErr Actions :=
  match key with
  | .vStr k =>
    match func with
    | .vFun f =>
      match alookup a.actions k with
      | none => .error .notDeclared
      | some r =>
        match r.func with
        | some _ => .error .alreadyRegistered
        | none =>
          .ok { actions := aset a.actions k { subscribers := [], func := some f } }
    | _ => .error .funcNotFunction
  | _ => .error .keyNotString

/-- The errors Actions.on can throw: a TypeError for a non-string key, a
TypeError for a non-function callback, and the TypeError raised by
reading subscribers of undefined when the name was never declared. -/
inductive OnErr where
  | keyNotString : OnErr
  | cbNotFunction : OnErr
  | undeclaredAccess : OnErr
deriving DecidableEq

/-- Actions.on: validate the arguments, then push the callback onto the
subscriber list of the action unless the same reference is already there;
return the callback reference when it was appended and nothing on a
duplicate. -/
def Actions.on (a : Actions) (key cb : JSVal) :
    Except OnErr (Actions × Option JSVal) :=
  match key with
  | .vStr k =>
    match cb with
    | .vFun c =>
      match alookup a.actions k with
      | none => .error .undeclaredAccess
      | some r =>
        if c ∈ r.subscribers then .ok (a, none)
        else
          .ok ({ actions := aset a.actions k
                  { subscribers := r.subscribers ++ [c], func := r.func } },
            some (.vFun c))
    | _ => .error .cbNotFunction
  | _ => .error .keyNotString

/-- Actions.publish: invoke every subscriber of the action in list order,
passing the data to each; a no-op when the name is undeclared. The result
is the list of invocations, subscriber identity paired with the data it
received. -/
def Actions.publish (a : Actions) (k : String) (data : JSVal) :
    List (Nat × JSVal) :=
  match alookup a.actions k with
  | none => []
  | some r => r.subscribers.map (fun c => (c, data))

/-- The function built by Actions.buildDoneFunction for an action name:
given the data handed to done, it publishes that data to the subscribers
of the action. -/
def Actions.done (a : Actions) (k : String) (d : JSVal) :
    List (Nat × JSVal) :=
  Actions.publish a k d

/-- What one Actions.call invocation does, observably. -/
inductive CallEffect where
  | noAction : CallEffect
  | handlerInvoked : Nat → JSVal → CallEffect
  | publishedNow : List (Nat × JSVal) → CallEffect

/-- Actions.call: an undeclared name is silently ignored; with a
registered function the call invokes only that function, passing it the
done callback and the args, touching no subscriber; without one it
publishes immediately with no data argument, so every subscriber receives
undefined whatever args was. -/
def Actions.call (a : Actions) (k : String) (args : JSVal) : CallEffect :=
  match alookup a.actions k with
  | none => .noAction
  | some r =>
    match r.func with
    | some f => .handlerInvoked f args
    | none => .publishedNow (Actions.publish a k .vUndefined)

/-- The subscriber list of a declared action, as read from the registry. -/
def Actions.subscribersOf (a : Actions) (k : String) : List Nat :=
  match alookup a.actions k with
  | none => []
  | some r => r.subscribers

theorem alookup_aset_self {β : Type} (l : List (String × β)) (k : String) (v : β) :
    alookup (aset l k v) k = some v := by
  induction l with
  | nil => simp [aset, alookup]
  | cons hd tl ih =>
    obtain ⟨kh, vh⟩ := hd
    by_cases hh : kh = k
    · simp [aset, alookup, hh]
    · simp [aset, alookup, hh, ih]

theorem alookup_aset_ne {β : Type} (l : List (String × β)) (k k2 : String) (v : β)
    (h : k2 ≠ k) : alookup (aset l k v) k2 = alookup l k2 := by
  induction l with
  | nil => simp [aset, alookup, Ne.symm h]
  | cons hd tl ih =>
    obtain ⟨kh, vh⟩ := hd
    by_cases hh : kh = k
    · subst hh
      simp [aset, alookup, Ne.symm h]
    · simp [aset, alookup, hh, ih]

theorem alookup_aremove_ne {β : Type} (l : List (String × β)) (k k2 : String)
    (h : k2 ≠ k) : alookup (aremove l k) k2 = alookup l k2 := by
  induction l with
  | nil => simp [aremove]
  | cons hd tl ih =>
    obtain ⟨kh, vh⟩ := hd
    by_cases hh : kh = k
    · subst hh
      simp [aremove, alookup, Ne.symm h]
    · simp [aremove, alookup, hh, ih]

theorem stepKey_obj_preserve (fs : List (String × JSVal)) (k : String) (v : JSVal) :
    ∃ fs2, (stepKey (.vObj fs) k v).stem = .vObj fs2
      ∧ ∀ k2, k2 ≠ k → alookup fs2 k2 = alookup fs k2 := by
  cases v with
  | vNull =>
    exact ⟨aremove fs k,
      by simp [stepKey, isNullish, deleteProp, MergeOut.stem],
      fun k2 h => alookup_aremove_ne fs k k2 h⟩
  | vUndefined =>
    exact ⟨aremove fs k,
      by simp [stepKey, isNullish, deleteProp, MergeOut.stem],
      fun k2 h => alookup_aremove_ne fs k k2 h⟩
  | vNum n =>
    exact ⟨aset fs k (.vNum n),
      by simp [stepKey, isNullish, typeofJs, setProp, MergeOut.stem],
      fun k2 h => alookup_aset_ne fs k k2 _ h⟩
  | vStr s =>
    exact ⟨aset fs k (.vStr s),
      by simp [stepKey, isNullish, typeofJs, setProp, MergeOut.stem],
      fun k2 h => alookup_aset_ne fs k k2 _ h⟩
  | vBool b =>
    exact ⟨aset fs k (.vBool b),
      by simp [stepKey, isNullish, typeofJs, setProp, MergeOut.stem],
      fun k2 h => alookup_aset_ne fs k k2 _ h⟩
  | vFun f =>
    exact ⟨aset fs k (.vFun f),
      by simp [stepKey, isNullish, typeofJs, setProp, MergeOut.stem],
      fun k2 h => alookup_aset_ne fs k k2 _ h⟩
  | vArr es =>
    by_cases hsv : typeofJs ((alookup fs k).getD .vUndefined) = "object"
    · exact ⟨fs,
        by simp [stepKey, getProp, hsv, MergeOut.stem,
          show isNullish (JSVal.vArr es) = false from rfl,
          show typeofJs (JSVal.vArr es) = "object" from rfl],
        fun k2 h => rfl⟩
    · exact ⟨aset fs k (.vArr es),
        by simp [stepKey, getProp, hsv, setProp, MergeOut.stem,
          show isNullish (JSVal.vArr es) = false from rfl,
          show typeofJs (JSVal.vArr es) = "object" from rfl],
        fun k2 h => alookup_aset_ne fs k k2 _ h⟩
  | vObj ps =>
    by_cases hsv : typeofJs ((alookup fs k).getD .vUndefined) = "object"
    · cases hm : mergeFields ps ((alookup fs k).getD .vUndefined) with
      | ok sv2 =>
        exact ⟨aset fs k sv2,
          by simp [stepKey, getProp, hsv, hm, setProp, MergeOut.stem,
            show isNullish (JSVal.vObj ps) = false from rfl,
            show typeofJs (JSVal.vObj ps) = "object" from rfl],
          fun k2 h => alookup_aset_ne fs k k2 _ h⟩
      | err sv2 =>
        exact ⟨aset fs k sv2,
          by simp [stepKey, getProp, hsv, hm, setProp, MergeOut.stem,
            show isNullish (JSVal.vObj ps) = false from rfl,
            show typeofJs (JSVal.vObj ps) = "object" from rfl],
          fun k2 h => alookup_aset_ne fs k k2 _ h⟩
    · exact ⟨aset fs k (.vObj ps),
        by simp [stepKey, getProp, hsv, setProp, MergeOut.stem,
          show isNullish (JSVal.vObj ps) = false from rfl,
          show typeofJs (JSVal.vObj ps) = "object" from rfl],
        fun k2 h => alookup_aset_ne fs k k2 _ h⟩

theorem mergeFields_obj_preserve (ps : List (String × JSVal))
    (fs : List (String × JSVal)) (k : String) (hk : k ∉ ps.map Prod.fst) :
    ∃ fs2, (mergeFields ps (.vObj fs)).stem = .vObj fs2
      ∧ alookup fs2 k = alookup fs k := by
  induction ps generalizing fs with
  | nil => exact ⟨fs, by simp [mergeFields, MergeOut.stem], rfl⟩
  | cons hd tl ih =>
    obtain ⟨kh, vh⟩ := hd
    simp only [List.map_cons, List.mem_cons, not_or] at hk
    obtain ⟨fs1, hstem, hpres⟩ := stepKey_obj_preserve fs kh vh
    cases hs : stepKey (.vObj fs) kh vh with
    | ok s =>
      rw [hs] at hstem
      simp only [MergeOut.stem] at hstem
      subst hstem
      obtain ⟨fs2, h2, h3⟩ := ih fs1 hk.2
      refine ⟨fs2, ?_, ?_⟩
      · simp [mergeFields, hs, h2]
      · rw [h3, hpres k hk.1]
    | err s =>
      rw [hs] at hstem
      simp only [MergeOut.stem] at hstem
      subst hstem
      refine ⟨fs1, ?_, hpres k hk.1⟩
      simp [mergeFields, hs, MergeOut.stem]

theorem mergeFields_append (xs ys : List (String × JSVal)) (stem : JSVal) :
    mergeFields (xs ++ ys) stem =
      match mergeFields xs stem with
      | .ok s => mergeFields ys s
      | .err s => .err s := by
  induction xs generalizing stem with
  | nil => simp [mergeFields]
  | cons hd tl ih =>
    obtain ⟨kh, vh⟩ := hd
    cases hs : stepKey stem kh vh with
    | ok s => simp [mergeFields, hs, ih]
    | err s => simp [mergeFields, hs]

theorem map_pair_snd {α β : Type} (l : List α) (x : β) (p : α × β)
    (hp : p ∈ l.map (fun c => (c, x))) : p.2 = x := by
  simp only [List.mem_map] at hp
  obtain ⟨c, _, he⟩ := hp
  rw [← he]

theorem setState_state (ds : DataStore) (p : JSVal) :
    (ds.setState p).store.state = (setStateRec p ds.state).stem := by
  cases hm : setStateRec p ds.state with
  | ok st => simp [DataStore.setState, hm, MergeOut.isOk, MergeOut.stem]
  | err st => simp [DataStore.setState, hm, MergeOut.isOk, MergeOut.stem]

/-- C1 counterexample: on the registry declaring the single action named
a, subscribing callback 7 and then registering handler 3 succeeds, but the
subscriber list afterwards is empty, not the prior one-element list the
claim requires register to preserve. -/
theorem c1_counterexample :
    Actions.on (Actions.create ["a"]) (.vStr "a") (.vFun 7)
        = .ok (⟨[("a", ⟨[7], none⟩)]⟩, some (.vFun 7))
      ∧ Actions.register ⟨[("a", ⟨[7], none⟩)]⟩ (.vStr "a") (.vFun 3)
        = .ok ⟨[("a", ⟨[], some 3⟩)]⟩
      ∧ Actions.subscribersOf ⟨[("a", ⟨[], some 3⟩)]⟩ "a" ≠ [7] := by
  refine ⟨?_, ?_, ?_⟩ <;>
    simp [Actions.on, Actions.create, Actions.register, Actions.subscribersOf,
      alookup, aset]

/-- C1 amended: register on a declared action with no handler yet
succeeds and replaces the whole action record, installing the handler and
resetting the subscriber list to empty, so callbacks subscribed before
registration are discarded. -/
theorem c1_amended_register_resets (a : Actions) (k : String) (r : ActionRec)
    (f : Nat) (hdecl : alookup a.actions k = some r) (hnof : r.func = none) :
    Actions.register a (.vStr k) (.vFun f)
        = .ok ⟨aset a.actions k ⟨[], some f⟩⟩
      ∧ Actions.subscribersOf ⟨aset a.actions k ⟨[], some f⟩⟩ k = [] := by
  constructor
  · simp [Actions.register, hdecl, hnof]
  · simp [Actions.subscribersOf, alookup_aset_self]

/-- C1 amended witness at the registry declaring action a with subscriber
7 already present and handler 3 being registered. -/
theorem c1_amended_witness :
    Actions.register ⟨[("a", ⟨[7], none⟩)]⟩ (.vStr "a") (.vFun 3)
        = .ok ⟨aset [("a", ⟨[7], none⟩)] "a" ⟨[], some 3⟩⟩
      ∧ Actions.subscribersOf ⟨aset [("a", ⟨[7], none⟩)] "a" ⟨[], some 3⟩⟩ "a"
        = [] :=
  c1_amended_register_resets ⟨[("a", ⟨[7], none⟩)]⟩ "a" ⟨[7], none⟩ 3
    (by simp [alookup]) rfl

/-- C3: calling a declared action that has no registered handler invokes
each subscriber synchronously with no data, so every subscriber receives
undefined even when args was supplied; calling an undeclared name is a
silent no-op with no error and no subscriber invocation. -/
theorem c3_call_without_handler (a : Actions) (k kU : String) (r : ActionRec)
    (args argsU : JSVal)
    (hdecl : alookup a.actions k = some r) (hnof : r.func = none)
    (hundecl : alookup a.actions kU = none) :
    Actions.call a k args
        = .publishedNow (r.subscribers.map (fun c => (c, .vUndefined)))
      ∧ Actions.call a kU argsU = .noAction := by
  constructor
  · simp [Actions.call, hdecl, hnof, Actions.publish]
  · simp [Actions.call, hundecl]

/-- C3 witness: a registry declaring action a with one subscriber and no
handler, called with data, publishes undefined to the subscriber; the
undeclared name b is ignored. -/
theorem c3_witness :
    Actions.call ⟨[("a", ⟨[7], none⟩)]⟩ "a" (.vNum 1)
        = .publishedNow [(7, .vUndefined)]
      ∧ Actions.call ⟨[("a", ⟨[7], none⟩)]⟩ "b" (.vNum 1) = .noAction := by
  have h := c3_call_without_handler ⟨[("a", ⟨[7], none⟩)]⟩ "a" "b" ⟨[7], none⟩
    (.vNum 1) (.vNum 1) (by simp [alookup]) rfl (by simp [alookup])
  simpa using h

/-- C7: calling a declared action with a registered handler invokes only
that handler, passing it the done callback and args, and notifies no
subscriber by itself; when the handler later invokes done with data d,
every subscriber of the action is invoked in subscription order, each
receiving exactly d. -/
theorem c7_handler_gating (a : Actions) (k : String) (r : ActionRec) (f : Nat)
    (args d : JSVal)
    (hdecl : alookup a.actions k = some r) (hf : r.func = some f) :
    Actions.call a k args = .handlerInvoked f args
      ∧ Actions.done a k d = r.subscribers.map (fun c => (c, d)) := by
  constructor
  · simp [Actions.call, hdecl, hf]
  · simp [Actions.done, Actions.publish, hdecl]

/-- C7 witness: action a with handler 3 and subscribers 4 and 8; call
invokes the handler only, and done with 42 delivers 42 to both
subscribers in order. -/
theorem c7_witness :
    Actions.call ⟨[("a", ⟨[4, 8], some 3⟩)]⟩ "a" (.vNum 1)
        = .handlerInvoked 3 (.vNum 1)
      ∧ Actions.done ⟨[("a", ⟨[4, 8], some 3⟩)]⟩ "a" (.vNum 42)
        = [(4, .vNum 42), (8, .vNum 42)] := by
  have h := c7_handler_gating ⟨[("a", ⟨[4, 8], some 3⟩)]⟩ "a" ⟨[4, 8], some 3⟩ 3
    (.vNum 1) (.vNum 42) (by simp [alookup]) rfl
  simpa using h

/-- C8: register throws a TypeError when the name is not a string or the
handler is not callable, an Error when the name was not declared at
construction, and an Error when the action already has a handler; after a
successful first registration of f1, a second register attempt fails with
the already-registered error, f1 remains the bound handler, and a
subsequent call still invokes f1. -/
theorem c8_register_errors (a : Actions) (key f0 : JSVal) (k kU : String)
    (f1 f2 : Nat) (r : ActionRec) (args : JSVal) :
    (typeofJs key ≠ "string" → Actions.register a key f0 = .error .keyNotString)
    ∧ (typeofJs f0 ≠ "function" →
        Actions.register a (.vStr k) f0 = .error .funcNotFunction)
    ∧ (alookup a.actions kU = none →
        Actions.register a (.vStr kU) (.vFun f1) = .error .notDeclared)
    ∧ (alookup a.actions k = some r → r.func = none →
        Actions.register a (.vStr k) (.vFun f1)
            = .ok ⟨aset a.actions k ⟨[], some f1⟩⟩
          ∧ Actions.register ⟨aset a.actions k ⟨[], some f1⟩⟩ (.vStr k) (.vFun f2)
            = .error .alreadyRegistered
          ∧ Actions.call ⟨aset a.actions k ⟨[], some f1⟩⟩ k args
            = .handlerInvoked f1 args) := by
  refine ⟨?_, ?_, ?_, ?_⟩
  · intro h
    cases key <;> simp_all [Actions.register, typeofJs]
  · intro h
    cases f0 <;> simp_all [Actions.register, typeofJs]
  · intro h
    simp [Actions.register, h]
  · intro h1 h2
    refine ⟨?_, ?_, ?_⟩
    · simp [Actions.register, h1, h2]
    · simp [Actions.register, alookup_aset_self]
    · simp [Actions.call, alookup_aset_self]

/-- C8 witness on the registry declaring the single action a: a numeric
name, a numeric handler, an undeclared name, a first and a second
registration, and a call after registration. -/
theorem c8_witness :
    Actions.register (Actions.create ["a"]) (.vNum 0) (.vNum 1)
        = .error .keyNotString
      ∧ Actions.register (Actions.create ["a"]) (.vStr "a") (.vNum 1)
        = .error .funcNotFunction
      ∧ Actions.register (Actions.create ["a"]) (.vStr "b") (.vFun 3)
        = .error .notDeclared
      ∧ (Actions.register (Actions.create ["a"]) (.vStr "a") (.vFun 3)
          = .ok ⟨aset (Actions.create ["a"]).actions "a" ⟨[], some 3⟩⟩
        ∧ Actions.register ⟨aset (Actions.create ["a"]).actions "a" ⟨[], some 3⟩⟩
            (.vStr "a") (.vFun 4) = .error .alreadyRegistered
        ∧ Actions.call ⟨aset (Actions.create ["a"]).actions "a" ⟨[], some 3⟩⟩
            "a" (.vNum 9) = .handlerInvoked 3 (.vNum 9)) := by
  have h := c8_register_errors (Actions.create ["a"]) (.vNum 0) (.vNum 1)
    "a" "b" 3 4 ⟨[], none⟩ (.vNum 9)
  exact ⟨h.1 (by simp [typeofJs]), h.2.1 (by simp [typeofJs]),
    h.2.2.1 (by simp [Actions.create, alookup]),
    h.2.2.2 (by simp [Actions.create, alookup]) rfl⟩

/-- C9: subscription is idempotent by reference identity for both the
state container and the action registry: a first subscription of a new
callback appends exactly one entry and returns the callback reference,
and a duplicate subscription of the same reference changes nothing and
returns nothing, leaving exactly one entry for the callback. -/
theorem c9_idempotent_subscription (ds : DataStore) (c : Nat) (a : Actions)
    (k : String) (r : ActionRec) (c2 : Nat)
    (hds : c ∉ ds.subscribers)
    (hdecl : alookup a.actions k = some r) (hc2 : c2 ∉ r.subscribers) :
    (ds.onStateChanged (.vFun c)
        = ({ state := ds.state, subscribers := ds.subscribers ++ [c] },
            some (.vFun c))
      ∧ DataStore.onStateChanged
          { state := ds.state, subscribers := ds.subscribers ++ [c] } (.vFun c)
        = ({ state := ds.state, subscribers := ds.subscribers ++ [c] }, none)
      ∧ (ds.subscribers ++ [c]).count c = 1)
    ∧ (Actions.on a (.vStr k) (.vFun c2)
        = .ok (⟨aset a.actions k ⟨r.subscribers ++ [c2], r.func⟩⟩,
            some (.vFun c2))
      ∧ Actions.on ⟨aset a.actions k ⟨r.subscribers ++ [c2], r.func⟩⟩
          (.vStr k) (.vFun c2)
        = .ok (⟨aset a.actions k ⟨r.subscribers ++ [c2], r.func⟩⟩, none)
      ∧ (r.subscribers ++ [c2]).count c2 = 1) := by
  refine ⟨⟨?_, ?_, ?_⟩, ⟨?_, ?_, ?_⟩⟩
  · simp [DataStore.onStateChanged, hds]
  · simp [DataStore.onStateChanged]
  · simp [List.count_append, List.count_eq_zero.mpr hds]
  · simp [Actions.on, hdecl, hc2]
  · simp [Actions.on, alookup_aset_self]
  · simp [List.count_append, List.count_eq_zero.mpr hc2]

/-- C9 witness: a store with subscriber 4 receiving new callback 7, and a
registry whose action a has subscriber 9 receiving new callback 7. -/
theorem c9_witness :
    (DataStore.onStateChanged ⟨.vObj [], [4]⟩ (.vFun 7)
        = (⟨.vObj [], [4, 7]⟩, some (.vFun 7))
      ∧ DataStore.onStateChanged ⟨.vObj [], [4, 7]⟩ (.vFun 7)
        = (⟨.vObj [], [4, 7]⟩, none)
      ∧ ([4, 7] : List Nat).count 7 = 1)
    ∧ (Actions.on ⟨[("a", ⟨[9], none⟩)]⟩ (.vStr "a") (.vFun 7)
        = .ok (⟨aset [("a", ⟨[9], none⟩)] "a" ⟨[9, 7], none⟩⟩, some (.vFun 7))
      ∧ Actions.on ⟨aset [("a", ⟨[9], none⟩)] "a" ⟨[9, 7], none⟩⟩
          (.vStr "a") (.vFun 7)
        = .ok (⟨aset [("a", ⟨[9], none⟩)] "a" ⟨[9, 7], none⟩⟩, none)
      ∧ ([9, 7] : List Nat).count 7 = 1) := by
  have h := c9_idempotent_subscription ⟨.vObj [], [4]⟩ 7 ⟨[("a", ⟨[9], none⟩)]⟩
    "a" ⟨[9], none⟩ 7 (by simp) (by simp [alookup]) (by simp)
  simpa using h

/-- C6: validation is asymmetric between the two mutators: setState on
any argument that is not a plain object throws, mutates nothing and
notifies no subscriber, while replaceState on any argument that is not
object-typed or is null silently returns with no error, no state change
and no notification. -/
theorem c6_validation_asymmetry (ds : DataStore) (p q : JSVal)
    (hp : validPatch p = false) (hq : replaceValid q = false) :
    ds.setState p = { store := ds, notifs := [], threw := true }
      ∧ ds.replaceState q = { store := ds, notifs := [], threw := false } := by
  constructor
  · simp [DataStore.setState, setStateRec, hp, MergeOut.isOk, MergeOut.stem]
  · simp [DataStore.replaceState, hq]

/-- C6 witness at the concrete invalid arguments named by the claim: the
number 42, null and the array of 1, 2, 3 for setState, and 42 and null
for replaceState. -/
theorem c6_witness :
    DataStore.setState ⟨.vObj [], [4]⟩ (.vNum 42)
        = { store := ⟨.vObj [], [4]⟩, notifs := [], threw := true }
      ∧ DataStore.setState ⟨.vObj [], [4]⟩ .vNull
        = { store := ⟨.vObj [], [4]⟩, notifs := [], threw := true }
      ∧ DataStore.setState ⟨.vObj [], [4]⟩ (.vArr [.vNum 1, .vNum 2, .vNum 3])
        = { store := ⟨.vObj [], [4]⟩, notifs := [], threw := true }
      ∧ DataStore.replaceState ⟨.vObj [], [4]⟩ (.vNum 42)
        = { store := ⟨.vObj [], [4]⟩, notifs := [], threw := false }
      ∧ DataStore.replaceState ⟨.vObj [], [4]⟩ .vNull
        = { store := ⟨.vObj [], [4]⟩, notifs := [], threw := false } := by
  have h1 := c6_validation_asymmetry ⟨.vObj [], [4]⟩ (.vNum 42) (.vNum 42) rfl rfl
  have h2 := c6_validation_asymmetry ⟨.vObj [], [4]⟩ .vNull .vNull rfl rfl
  have h3 := c6_validation_asymmetry ⟨.vObj [], [4]⟩
    (.vArr [.vNum 1, .vNum 2, .vNum 3]) (.vNum 42) rfl rfl
  exact ⟨h1.1, h2.1, h3.1, h1.2, h2.2⟩

/-- C5: after a mutation call that completes without throwing, the state
holds the fully merged or replaced result, and the notification sequence
invokes the subscribers of the store exactly in list order, every one
receiving the same final state value, hence each subscriber exactly once
when the subscriber list is duplicate-free. Recursive inner merge
invocations contribute no notification at all: notifications are produced
only by the outermost call, after the merge has fully completed. -/
theorem c5_notification_invariant (ds : DataStore) (patch snew : JSVal)
    (c : Nat)
    (hok : (ds.setState patch).threw = false)
    (hrv : replaceValid snew = true) :
    ((ds.setState patch).store.state = (setStateRec patch ds.state).stem
      ∧ (ds.setState patch).notifs.map Prod.fst = ds.subscribers
      ∧ (∀ p ∈ (ds.setState patch).notifs,
          p.2 = (ds.setState patch).store.state)
      ∧ (ds.subscribers.Nodup → c ∈ ds.subscribers →
          ((ds.setState patch).notifs.map Prod.fst).count c = 1))
    ∧ ((ds.replaceState snew).store.state = snew
      ∧ (ds.replaceState snew).notifs.map Prod.fst = ds.subscribers
      ∧ (∀ p ∈ (ds.replaceState snew).notifs, p.2 = snew)
      ∧ (ds.subscribers.Nodup → c ∈ ds.subscribers →
          ((ds.replaceState snew).notifs.map Prod.fst).count c = 1)) := by
  constructor
  · cases hm : setStateRec patch ds.state with
    | err st =>
      exfalso
      simp [DataStore.setState, hm, MergeOut.isOk] at hok
    | ok st =>
      refine ⟨?_, ?_, ?_, ?_⟩
      · simp [DataStore.setState, hm, MergeOut.isOk, MergeOut.stem]
      · simp [DataStore.setState, hm, MergeOut.isOk, Function.comp_def]
      · intro p hp
        simp only [DataStore.setState, hm, MergeOut.isOk, MergeOut.stem] at hp ⊢
        exact map_pair_snd ds.subscribers st p hp
      · intro hnd hc
        rw [show (ds.setState patch).notifs.map Prod.fst = ds.subscribers by
          simp [DataStore.setState, hm, MergeOut.isOk, Function.comp_def]]
        exact List.count_eq_one_of_mem hnd hc
  · refine ⟨?_, ?_, ?_, ?_⟩
    · simp [DataStore.replaceState, hrv]
    · simp [DataStore.replaceState, hrv, Function.comp_def]
    · intro p hp
      simp only [DataStore.replaceState, hrv, if_true] at hp
      exact map_pair_snd ds.subscribers snew p hp
    · intro hnd hc
      rw [show (ds.replaceState snew).notifs.map Prod.fst = ds.subscribers by
        simp [DataStore.replaceState, hrv, Function.comp_def]]
      exact List.count_eq_one_of_mem hnd hc

/-- C5 witness: a store with subscribers 4 and 6, a successful merge of
one key, and a replacement, checking the notification sequence and the
exactly-once count for subscriber 4. -/
theorem c5_witness :
    (DataStore.setState ⟨.vObj [], [4, 6]⟩ (.vObj [("a", .vNum 1)])).threw
        = false
      ∧ (DataStore.setState ⟨.vObj [], [4, 6]⟩
          (.vObj [("a", .vNum 1)])).notifs.map Prod.fst = [4, 6]
      ∧ ((DataStore.setState ⟨.vObj [], [4, 6]⟩
          (.vObj [("a", .vNum 1)])).notifs.map Prod.fst).count 4 = 1
      ∧ (DataStore.replaceState ⟨.vObj [], [4, 6]⟩
          (.vObj [("b", .vNum 2)])).store.state = .vObj [("b", .vNum 2)] := by
  have hok : (DataStore.setState ⟨.vObj [], [4, 6]⟩
      (.vObj [("a", .vNum 1)])).threw = false := by
    simp [DataStore.setState, setStateRec, validPatch, mergeFields, stepKey,
      isNullish, typeofJs, getProp, setProp, alookup, aset, MergeOut.isOk]
  have h := c5_notification_invariant ⟨.vObj [], [4, 6]⟩
    (.vObj [("a", .vNum 1)]) (.vObj [("b", .vNum 2)]) 4 hok rfl
  exact ⟨hok, h.1.2.1, h.1.2.2.2 (by decide) (by decide), h.2.1⟩

/-- C4: setState merges non-destructively at arbitrary depth. First, the
concrete law of the spec: from state a maps to x 1, y 2, patching a with
x 10 yields a maps to x 10, y 2, with the sibling y preserved and one
notification. Second, in general every top-level key absent from the
patch keeps its previous value. Third, when both the patch value and the
existing value at a key are plain mappings, the merge recurses, and every
key of the nested mapping absent from the nested patch keeps its previous
value. -/
theorem c4_nested_merge :
    (DataStore.setState
        ⟨.vObj [("a", .vObj [("x", .vNum 1), ("y", .vNum 2)])], [9]⟩
        (.vObj [("a", .vObj [("x", .vNum 10)])])
      = { store :=
            ⟨.vObj [("a", .vObj [("x", .vNum 10), ("y", .vNum 2)])], [9]⟩,
          notifs :=
            [(9, .vObj [("a", .vObj [("x", .vNum 10), ("y", .vNum 2)])])],
          threw := false })
    ∧ (∀ fs subs ps k, k ∉ ps.map Prod.fst →
        ∃ fs2,
          (DataStore.setState ⟨.vObj fs, subs⟩ (.vObj ps)).store.state
              = .vObj fs2
            ∧ alookup fs2 k = alookup fs k)
    ∧ (∀ fs subs k qs gs k2, alookup fs k = some (.vObj gs) →
        k2 ∉ qs.map Prod.fst →
        ∃ gs2,
          (∃ fs2,
            (DataStore.setState ⟨.vObj fs, subs⟩
                (.vObj [(k, .vObj qs)])).store.state = .vObj fs2
              ∧ alookup fs2 k = some (.vObj gs2))
          ∧ alookup gs2 k2 = alookup gs k2) := by
  refine ⟨?_, ?_, ?_⟩
  · simp [DataStore.setState, setStateRec, validPatch, mergeFields, stepKey,
      isNullish, typeofJs, getProp, setProp, alookup, aset,
      MergeOut.isOk, MergeOut.stem]
  · intro fs subs ps k hk
    obtain ⟨fs2, h1, h2⟩ := mergeFields_obj_preserve ps fs k hk
    refine ⟨fs2, ?_, h2⟩
    rw [setState_state]
    simpa [setStateRec, validPatch] using h1
  · intro fs subs k qs gs k2 hsub hk2
    obtain ⟨gs2, hst, hlk⟩ := mergeFields_obj_preserve qs gs k2 hk2
    refine ⟨gs2, ?_, hlk⟩
    rw [setState_state]
    cases hm : mergeFields qs (.vObj gs) with
    | ok sv2 =>
      have hsv2 : sv2 = .vObj gs2 := by
        rw [hm] at hst
        simpa [MergeOut.stem] using hst
      subst hsv2
      refine ⟨aset fs k (.vObj gs2), ?_, alookup_aset_self fs k _⟩
      simp [setStateRec, validPatch, mergeFields, stepKey, getProp, hsub, hm,
        setProp, MergeOut.stem,
        show isNullish (JSVal.vObj qs) = false from rfl,
        show typeofJs (JSVal.vObj qs) = "object" from rfl,
        show typeofJs (JSVal.vObj gs) = "object" from rfl]
    | err sv2 =>
      have hsv2 : sv2 = .vObj gs2 := by
        rw [hm] at hst
        simpa [MergeOut.stem] using hst
      subst hsv2
      refine ⟨aset fs k (.vObj gs2), ?_, alookup_aset_self fs k _⟩
      simp [setStateRec, validPatch, mergeFields, stepKey, getProp, hsub, hm,
        setProp, MergeOut.stem,
        show isNullish (JSVal.vObj qs) = false from rfl,
        show typeofJs (JSVal.vObj qs) = "object" from rfl,
        show typeofJs (JSVal.vObj gs) = "object" from rfl]

/-- C4 witness: the untouched-key part at a store whose key z is absent
from the patch, and the nested part at the concrete example of the spec
with sibling y. -/
theorem c4_witness :
    (∃ fs2,
      (DataStore.setState ⟨.vObj [("z", .vNum 5)], []⟩
          (.vObj [("a", .vNum 1)])).store.state = .vObj fs2
        ∧ alookup fs2 "z" = alookup [("z", .vNum 5)] "z")
    ∧ (∃ gs2,
        (∃ fs2,
          (DataStore.setState
              ⟨.vObj [("a", .vObj [("x", .vNum 1), ("y", .vNum 2)])], []⟩
              (.vObj [("a", .vObj [("x", .vNum 10)])])).store.state = .vObj fs2
            ∧ alookup fs2 "a" = some (.vObj gs2))
        ∧ alookup gs2 "y" = alookup [("x", .vNum 1), ("y", .vNum 2)] "y") := by
  have h := c4_nested_merge
  exact ⟨h.2.1 [("z", .vNum 5)] [] [("a", .vNum 1)] "z" (by simp),
    h.2.2 [("a", .vObj [("x", .vNum 1), ("y", .vNum 2)])] [] "a"
      [("x", .vNum 10)] [("x", .vNum 1), ("y", .vNum 2)] "y"
      (by simp [alookup]) (by simp)⟩

/-- C2 counterexample: with existing state mapping a to the array 1, 2
and a patch mapping a to the array 9, the call throws a TypeError (the
recursive call rejects the array patch value at validation) and leaves
the old array in place, so the state at a is not the patch array assigned
verbatim as the claim requires. -/
theorem c2_counterexample :
    (DataStore.setState ⟨.vObj [("a", .vArr [.vNum 1, .vNum 2])], [5]⟩
        (.vObj [("a", .vArr [.vNum 9])])).threw = true
      ∧ (DataStore.setState ⟨.vObj [("a", .vArr [.vNum 1, .vNum 2])], [5]⟩
          (.vObj [("a", .vArr [.vNum 9])])).store.state
        = .vObj [("a", .vArr [.vNum 1, .vNum 2])]
      ∧ (DataStore.setState ⟨.vObj [("a", .vArr [.vNum 1, .vNum 2])], [5]⟩
          (.vObj [("a", .vArr [.vNum 9])])).store.state
        ≠ .vObj [("a", .vArr [.vNum 9])] := by
  refine ⟨?_, ?_, ?_⟩ <;>
    simp [DataStore.setState, setStateRec, validPatch, mergeFields, stepKey,
      isNullish, typeofJs, getProp, setProp, alookup, aset,
      MergeOut.isOk, MergeOut.stem]

/-- C2 amended: an array patch value is assigned verbatim only when the
runtime typeof of the existing value at that key is not the string
object, that is, when the existing value is absent or a primitive; when
the existing value is object-typed — a plain mapping, an array, or null —
setState instead recurses into it, and the recursive call rejects the
array patch with a TypeError, leaving the value at that key unchanged,
the keys merged before it applied, and no subscriber notified. -/
theorem c2_amended_array_patch :
    (∀ fs subs ps1 ps2 k arr,
        k ∉ ps1.map Prod.fst → k ∉ ps2.map Prod.fst →
        typeofJs ((alookup fs k).getD .vUndefined) ≠ "object" →
        (mergeFields ps1 (.vObj fs)).isOk = true →
        ∃ fs2,
          (DataStore.setState ⟨.vObj fs, subs⟩
              (.vObj (ps1 ++ (k, .vArr arr) :: ps2))).store.state = .vObj fs2
            ∧ alookup fs2 k = some (.vArr arr))
    ∧ (∀ fs subs ps1 ps2 k arr sv,
        k ∉ ps1.map Prod.fst →
        alookup fs k = some sv → typeofJs sv = "object" →
        (mergeFields ps1 (.vObj fs)).isOk = true →
        (DataStore.setState ⟨.vObj fs, subs⟩
            (.vObj (ps1 ++ (k, .vArr arr) :: ps2))).threw = true
          ∧ (DataStore.setState ⟨.vObj fs, subs⟩
              (.vObj (ps1 ++ (k, .vArr arr) :: ps2))).notifs = []
          ∧ (∃ fs1, mergeFields ps1 (.vObj fs) = .ok (.vObj fs1)
              ∧ (DataStore.setState ⟨.vObj fs, subs⟩
                  (.vObj (ps1 ++ (k, .vArr arr) :: ps2))).store.state
                = .vObj fs1
              ∧ alookup fs1 k = some sv)) := by
  constructor
  · intro fs subs ps1 ps2 k arr h1 h2 hty hok
    obtain ⟨fs1, hst1, hlk1⟩ := mergeFields_obj_preserve ps1 fs k h1
    cases hm1 : mergeFields ps1 (.vObj fs) with
    | err s =>
      rw [hm1] at hok
      simp [MergeOut.isOk] at hok
    | ok s =>
      rw [hm1] at hst1
      simp only [MergeOut.stem] at hst1
      subst hst1
      have hstep : stepKey (.vObj fs1) k (.vArr arr)
          = .ok (.vObj (aset fs1 k (.vArr arr))) := by
        simp [stepKey, getProp, hlk1, hty, setProp,
          show isNullish (JSVal.vArr arr) = false from rfl,
          show typeofJs (JSVal.vArr arr) = "object" from rfl]
      obtain ⟨fs2, hst2, hlk2⟩ :=
        mergeFields_obj_preserve ps2 (aset fs1 k (.vArr arr)) k h2
      refine ⟨fs2, ?_, by rw [hlk2, alookup_aset_self]⟩
      rw [setState_state]
      simp only [setStateRec, validPatch, if_true]
      rw [mergeFields_append, hm1]
      simpa [mergeFields, hstep] using hst2
  · intro fs subs ps1 ps2 k arr sv h1 hsv hty hok
    obtain ⟨fs1, hst1, hlk1⟩ := mergeFields_obj_preserve ps1 fs k h1
    cases hm1 : mergeFields ps1 (.vObj fs) with
    | err s =>
      rw [hm1] at hok
      simp [MergeOut.isOk] at hok
    | ok s =>
      rw [hm1] at hst1
      simp only [MergeOut.stem] at hst1
      subst hst1
      have hstep : stepKey (.vObj fs1) k (.vArr arr) = .err (.vObj fs1) := by
        simp [stepKey, getProp, hlk1, hsv, hty,
          show isNullish (JSVal.vArr arr) = false from rfl,
          show typeofJs (JSVal.vArr arr) = "object" from rfl]
      have hm : setStateRec (.vObj (ps1 ++ (k, .vArr arr) :: ps2)) (.vObj fs)
          = .err (.vObj fs1) := by
        simp only [setStateRec, validPatch, if_true]
        rw [mergeFields_append, hm1]
        simp [mergeFields, hstep]
      refine ⟨?_, ?_, fs1, rfl, ?_, ?_⟩
      · simp [DataStore.setState, hm, MergeOut.isOk]
      · simp [DataStore.setState, hm, MergeOut.isOk]
      · simp [DataStore.setState, hm, MergeOut.isOk, MergeOut.stem]
      · rw [hlk1, hsv]

/-- C2 amended witness: the verbatim branch at existing primitive value 1
under key a, and the throwing branch on a three-key patch whose middle
key b holds an array while the existing value at b is a mapping: the
earlier key p is applied, b is unchanged, the call throws and notifies
nobody. -/
theorem c2_amended_witness :
    (∃ fs2,
      (DataStore.setState ⟨.vObj [("a", .vNum 1)], []⟩
          (.vObj [("a", .vArr [.vNum 9])])).store.state = .vObj fs2
        ∧ alookup fs2 "a" = some (.vArr [.vNum 9]))
    ∧ ((DataStore.setState ⟨.vObj [("p", .vNum 1), ("b", .vObj [])], []⟩
          (.vObj [("p", .vNum 7), ("b", .vArr [.vNum 9]),
            ("q", .vNum 3)])).threw = true
      ∧ (DataStore.setState ⟨.vObj [("p", .vNum 1), ("b", .vObj [])], []⟩
          (.vObj [("p", .vNum 7), ("b", .vArr [.vNum 9]),
            ("q", .vNum 3)])).notifs = []
      ∧ (∃ fs1,
          mergeFields [("p", .vNum 7)] (.vObj [("p", .vNum 1), ("b", .vObj [])])
              = .ok (.vObj fs1)
            ∧ (DataStore.setState ⟨.vObj [("p", .vNum 1), ("b", .vObj [])], []⟩
                (.vObj [("p", .vNum 7), ("b", .vArr [.vNum 9]),
                  ("q", .vNum 3)])).store.state = .vObj fs1
            ∧ alookup fs1 "b" = some (.vObj []))) := by
  have h := c2_amended_array_patch
  refine ⟨?_, ?_⟩
  · have := h.1 [("a", .vNum 1)] [] [] [] "a" [.vNum 9] (by simp) (by simp)
      (by simp [alookup, typeofJs]) (by simp [mergeFields, MergeOut.isOk])
    simpa using this
  · exact h.2 [("p", .vNum 1), ("b", .vObj [])] [] [("p", .vNum 7)]
      [("q", .vNum 3)] "b" [.vNum 9] (.vObj []) (by simp)
      (by simp [alookup]) rfl
      (by simp [mergeFields, stepKey, isNullish, typeofJs, getProp, setProp,
        alookup, aset, MergeOut.isOk])

/-- C10: the merge recursion dispatches on runtime typeof object, which
null satisfies. The state mapping a to 1 and k to null is installed
verbatim by the constructor; after adding subscriber 5, a setState whose
patch maps a to 2 and k to a plain mapping throws a TypeError while
recursing into the null at k, aborting partway: the earlier key a is
already applied, k is unchanged, and no subscriber is notified. -/
theorem c10_null_recursion_typeerror :
    DataStore.create (.vObj [("a", .vNum 1), ("k", .vNull)])
        = ⟨.vObj [("a", .vNum 1), ("k", .vNull)], []⟩
      ∧ DataStore.onStateChanged ⟨.vObj [("a", .vNum 1), ("k", .vNull)], []⟩
          (.vFun 5)
        = (⟨.vObj [("a", .vNum 1), ("k", .vNull)], [5]⟩, some (.vFun 5))
      ∧ DataStore.setState ⟨.vObj [("a", .vNum 1), ("k", .vNull)], [5]⟩
          (.vObj [("a", .vNum 2), ("k", .vObj [("x", .vNum 1)])])
        = { store := ⟨.vObj [("a", .vNum 2), ("k", .vNull)], [5]⟩,
            notifs := [], threw := true } := by
  refine ⟨?_, ?_, ?_⟩ <;>
    simp [DataStore.create, jsFalsy, DataStore.onStateChanged,
      DataStore.setState, setStateRec, validPatch, mergeFields, stepKey,
      isNullish, typeofJs, getProp, setProp, deleteProp, alookup, aset,
      MergeOut.isOk, MergeOut.stem]
